import Mathlib

/-!
Shallow embedding of the py-api service (src/py-api/app/main.py): a FastAPI
app with a Prometheus-style metrics middleware, two labelled counters
(http_requests_total, http_errors_total), and three route handlers
(/healthz, /work, /metrics).  Pure functions of the Python source become
Lean functions; the mutable counter registry becomes explicit state passing;
the middleware's counter increments are recorded as an explicit event trace
so that their order is observable.
-/

/-- Label tuple (path, method, status) identifying one counter series. -/
abbrev Labels := String × String × String

/-- The two counter families held by the process-wide registry
(REGISTRY with REQUEST_COUNT and ERROR_COUNT in main.py), each a map from
a label tuple to the current series value.  An absent series reads as 0,
matching lazy creation at 0. -/
structure Registry where
  http_requests_total : Labels → Nat
  http_errors_total : Labels → Nat

/-- Registry state at process start: every series value is 0. -/
def init_registry : Registry :=
  { http_requests_total := fun _ => 0, http_errors_total := fun _ => 0 }

/-- Counter.labels(...).inc(): add 1 to the series of one label tuple,
leaving every other series unchanged. -/
def incr (f : Labels → Nat) (l0 : Labels) : Labels → Nat :=
  fun l => if l = l0 then f l + 1 else f l

/-- Response bodies appearing in main.py, as structured JSON values. -/
inductive Body where
  | json_status_ok : Body
  | json_error : String → Body
  | json_result : Nat → Body
  | metrics_text : Registry → Body

/-- An HTTP response: the numeric status code plus its body. -/
structure Response where
  status_code : Nat
  body : Body

/-- An unhandled Python exception escaping a route handler: its type name
and message, carried opaquely so re-raising "unchanged" is expressible. -/
structure Fault where
  name : String
  msg : String
deriving DecidableEq

/-- Outcome of call_next(request): either a response or a raised fault. -/
inductive DelegateResult where
  | ok : Response → DelegateResult
  | fault : Fault → DelegateResult

/-- One counter increment performed by the middleware, as an event so that
the order of increments is part of the model. -/
inductive Ev where
  | incReq : Labels → Ev
  | incErr : Labels → Ev
deriving DecidableEq

/-- Python str.startswith on strings, via the underlying character lists. -/
def startswith (s p : String) : Bool := p.data.isPrefixOf s.data

/-- The metrics_middleware of main.py, translated clause by clause.
On a delegate response: status := str(status_code); always emit an
http_requests_total increment at (path, method, status); if the status
string starts with "5", additionally emit an http_errors_total increment.
On a delegate fault: status := "500"; emit the http_errors_total increment
first, then the http_requests_total increment, and re-raise the same fault.
Returns the ordered increment trace and the propagated outcome. -/
def metrics_middleware (path method : String) (d : DelegateResult) :
    List Ev × DelegateResult :=
  match d with
  | DelegateResult.ok response =>
      let status := Nat.repr response.status_code
      (Ev.incReq (path, method, status) ::
          (if startswith status ("5")
            then [Ev.incErr (path, method, status)] else []),
        DelegateResult.ok response)
  | DelegateResult.fault e =>
      let status : String := "500"
      ([Ev.incErr (path, method, status), Ev.incReq (path, method, status)],
        DelegateResult.fault e)

/-- Apply one increment event to the registry. -/
def applyEv (c : Registry) : Ev → Registry
  | Ev.incReq l => { c with http_requests_total := incr c.http_requests_total l }
  | Ev.incErr l => { c with http_errors_total := incr c.http_errors_total l }

/-- Apply a list of increment events left to right. -/
def runEvents (c : Registry) (es : List Ev) : Registry := es.foldl applyEv c

/-- One full middleware invocation: run the emitted increments against the
registry and propagate the delegate's outcome. -/
def stepRequest (c : Registry) (path method : String) (d : DelegateResult) :
    Registry × DelegateResult :=
  let r := metrics_middleware path method d
  (runEvents c r.1, r.2)

/-- The literal route table declared in main.py. -/
def app_routes : List (String × String) :=
  [(("GET"), ("/healthz")), (("GET"), ("/work")), (("GET"), ("/metrics"))]

/-- Route matching: FastAPI matches these parameterless routes by literal
equality of method and path. -/
def find_route (method rawPath : String) : Option (String × String) :=
  app_routes.find? (fun r => r.1 == method && r.2 == rawPath)

/-- The /healthz handler: always 200 with an ok body. -/
def healthz : Response := { status_code := 200, body := Body.json_status_ok }

/-- The deterministic computation of the /work handler:
sum(i * i for i in range(1, 101)). -/
def sum_squares_value : Nat := ((List.range' 1 100).map (fun i => i * i)).sum

/-- The /work handler body: on fail, a handled 500 JSONResponse with an
error payload; otherwise 200 with the computed result. -/
def work (fail : Bool) : Response :=
  if fail then { status_code := 500, body := Body.json_error ("intentional failure") }
  else { status_code := 200, body := Body.json_result sum_squares_value }

/-- The /work endpoint as invoked over HTTP: the fail query parameter is
optional and defaults to false. -/
def work_endpoint (failParam : Option Bool) : Response :=
  work (failParam.getD false)

/-- The /work handler in explicit state-passing form: the handler body
reads only its input and neither reads nor writes the registry. -/
def work_handler (fail : Bool) (s : Registry) : Response × Registry :=
  (work fail, s)

/-- The /metrics handler: 200 with the rendered registry (generate_latest
modeled as exposing the exact current series values). -/
def metrics (c : Registry) : Response :=
  { status_code := 200, body := Body.metrics_text c }

/-- One observed request: raw path, method, and the delegate's outcome. -/
structure Obs where
  path : String
  method : String
  result : DelegateResult

/-- The label tuple the middleware records for an observation: the
stringified status code on a response, the sentinel "500" on a fault. -/
def obsLabel (o : Obs) : Labels :=
  match o.result with
  | DelegateResult.ok r => (o.path, o.method, Nat.repr r.status_code)
  | DelegateResult.fault _ => (o.path, o.method, ("500"))

/-- Whether an observation's outcome is an error in the spec's sense: a
status in 500..599, or an unhandled fault. -/
def obs_is5xx (o : Obs) : Bool :=
  match o.result with
  | DelegateResult.ok r => decide (500 ≤ r.status_code) && decide (r.status_code ≤ 599)
  | DelegateResult.fault _ => true

/-- An observation has a well-formed outcome: a response status is a
3-digit code (faults carry no status). -/
def obsStatusValid (o : Obs) : Prop :=
  match o.result with
  | DelegateResult.ok r => 100 ≤ r.status_code ∧ r.status_code ≤ 999
  | DelegateResult.fault _ => True

/-- Run a sequence of requests through the middleware, threading the
registry. -/
def runObs (c : Registry) (os : List Obs) : Registry :=
  os.foldl (fun c o => (stepRequest c o.path o.method o.result).1) c

/-- The status label the middleware uses for a delegate outcome. -/
def statusLabel (d : DelegateResult) : String :=
  match d with
  | DelegateResult.ok r => Nat.repr r.status_code
  | DelegateResult.fault _ => ("500")

/-- The label tuple carried by an increment event. -/
def evLabel : Ev → Labels
  | Ev.incReq l => l
  | Ev.incErr l => l

set_option maxRecDepth 100000 in
set_option maxHeartbeats 2000000 in
/-- For every 3-digit status code, the stringified code starts with "5"
exactly when the numeric code lies in 500..599, and has 3 characters. -/
theorem repr_three_digit : ∀ n, n < 1000 → (100 ≤ n →
    (startswith (Nat.repr n) ("5") = (decide (500 ≤ n) && decide (n ≤ 599)) ∧
      (Nat.repr n).length = 3)) := by decide

theorem incr_self (f : Labels → Nat) (l0 : Labels) : incr f l0 l0 = f l0 + 1 := by
  simp [incr]

theorem incr_other (f : Labels → Nat) (l0 l : Labels) (h : l ≠ l0) :
    incr f l0 l = f l := by
  simp [incr, h]

theorem incr_apply (f : Labels → Nat) (l0 l : Labels) :
    incr f l0 l = f l + (if l = l0 then 1 else 0) := by
  by_cases h : l = l0 <;> simp [incr, h]

theorem stepRequest_result (c : Registry) (p m : String) (d : DelegateResult) :
    (stepRequest c p m d).2 = d := by
  cases d <;> rfl

theorem stepRequest_requests (c : Registry) (p m : String) (d : DelegateResult) :
    (stepRequest c p m d).1.http_requests_total =
      incr c.http_requests_total (obsLabel { path := p, method := m, result := d }) := by
  cases d with
  | ok r =>
      by_cases h : startswith (Nat.repr r.status_code) ("5") <;>
        simp [stepRequest, metrics_middleware, runEvents, applyEv, obsLabel, h]
  | fault e => rfl

theorem stepRequest_errors_raw (c : Registry) (p m : String) (d : DelegateResult) :
    (stepRequest c p m d).1.http_errors_total = c.http_errors_total ∨
    (stepRequest c p m d).1.http_errors_total =
      incr c.http_errors_total (obsLabel { path := p, method := m, result := d }) := by
  cases d with
  | ok r =>
      by_cases h : startswith (Nat.repr r.status_code) ("5")
      · right
        simp [stepRequest, metrics_middleware, runEvents, applyEv, obsLabel, h]
      · left
        simp [stepRequest, metrics_middleware, runEvents, applyEv, obsLabel, h]
  | fault e =>
      right
      rfl

theorem stepRequest_errors (c : Registry) (p m : String) (d : DelegateResult)
    (hv : obsStatusValid { path := p, method := m, result := d }) :
    (stepRequest c p m d).1.http_errors_total =
      if obs_is5xx { path := p, method := m, result := d }
        then incr c.http_errors_total (obsLabel { path := p, method := m, result := d })
        else c.http_errors_total := by
  cases d with
  | ok r =>
      have hb := (repr_three_digit r.status_code
        (Nat.lt_succ_of_le hv.2) hv.1).1
      by_cases h : startswith (Nat.repr r.status_code) ("5")
      · have h5 : obs_is5xx { path := p, method := m, result := DelegateResult.ok r } = true := by
          simp [obs_is5xx]
          have := h
          rw [hb] at this
          simpa using this
        simp [h5, stepRequest, metrics_middleware, runEvents, applyEv, obsLabel, h]
      · have h5 : obs_is5xx { path := p, method := m, result := DelegateResult.ok r } = false := by
          simp [obs_is5xx]
          intro hge
          by_contra hle
          have : startswith (Nat.repr r.status_code) ("5") = true := by
            rw [hb]
            simp [hge]
            omega
          exact h this
        simp [h5, stepRequest, metrics_middleware, runEvents, applyEv, obsLabel, h]
  | fault e =>
      simp [obs_is5xx, stepRequest, metrics_middleware, runEvents, applyEv, obsLabel]

/-- C1: for every request whose delegate returns a response with a 3-digit
status code, the middleware increments http_requests_total at
(path, method, status) by exactly 1 and changes no other series of it; it
increments http_errors_total at that tuple by exactly 1 when the numeric
status lies in 500..599 and changes no error series otherwise; and it
returns the delegate's response unchanged. -/
theorem c1_success_path (c : Registry) (p m : String) (r : Response)
    (h1 : 100 ≤ r.status_code) (h2 : r.status_code ≤ 999) :
    (stepRequest c p m (DelegateResult.ok r)).2 = DelegateResult.ok r ∧
    (stepRequest c p m (DelegateResult.ok r)).1.http_requests_total
        (p, m, Nat.repr r.status_code)
      = c.http_requests_total (p, m, Nat.repr r.status_code) + 1 ∧
    (∀ l, l ≠ (p, m, Nat.repr r.status_code) →
      (stepRequest c p m (DelegateResult.ok r)).1.http_requests_total l
        = c.http_requests_total l) ∧
    (500 ≤ r.status_code ∧ r.status_code ≤ 599 →
      (stepRequest c p m (DelegateResult.ok r)).1.http_errors_total
          (p, m, Nat.repr r.status_code)
        = c.http_errors_total (p, m, Nat.repr r.status_code) + 1 ∧
      ∀ l, l ≠ (p, m, Nat.repr r.status_code) →
        (stepRequest c p m (DelegateResult.ok r)).1.http_errors_total l
          = c.http_errors_total l) ∧
    (¬ (500 ≤ r.status_code ∧ r.status_code ≤ 599) →
      ∀ l, (stepRequest c p m (DelegateResult.ok r)).1.http_errors_total l
        = c.http_errors_total l) := by
  have hv : obsStatusValid { path := p, method := m, result := DelegateResult.ok r } :=
    ⟨h1, h2⟩
  have hreq := stepRequest_requests c p m (DelegateResult.ok r)
  have herr := stepRequest_errors c p m (DelegateResult.ok r) hv
  simp only [obsLabel] at hreq herr
  refine ⟨stepRequest_result c p m _, ?_, ?_, ?_, ?_⟩
  · rw [hreq, incr_self]
  · intro l hl
    rw [hreq, incr_other _ _ _ hl]
  · intro h5
    have hb : obs_is5xx { path := p, method := m, result := DelegateResult.ok r } = true := by
      simp only [obs_is5xx, Bool.and_eq_true, decide_eq_true_eq]
      exact h5
    rw [hb, if_pos rfl] at herr
    exact ⟨by rw [herr, incr_self], fun l hl => by rw [herr, incr_other _ _ _ hl]⟩
  · intro h5
    have hb : obs_is5xx { path := p, method := m, result := DelegateResult.ok r } = false := by
      simp only [obs_is5xx, Bool.and_eq_false_iff, decide_eq_false_iff_not]
      by_cases hge : 500 ≤ r.status_code
      · right
        intro hle
        exact h5 ⟨hge, hle⟩
      · left
        exact hge
    rw [hb] at herr
    simp only [Bool.false_eq_true, if_false] at herr
    intro l
    rw [herr]

/-- Witness for c1_success_path: a concrete 503 response on GET /healthz
bumps both counters at that label from 0 to 1. -/
theorem c1_success_path_witness :
    (stepRequest init_registry ("/healthz") ("GET")
        (DelegateResult.ok { status_code := 503, body := Body.json_status_ok })).1.http_requests_total
        (("/healthz"), ("GET"), Nat.repr 503) = 1 ∧
    (stepRequest init_registry ("/healthz") ("GET")
        (DelegateResult.ok { status_code := 503, body := Body.json_status_ok })).1.http_errors_total
        (("/healthz"), ("GET"), Nat.repr 503) = 1 := by
  have h := c1_success_path init_registry ("/healthz") ("GET")
    { status_code := 503, body := Body.json_status_ok } (by decide) (by decide)
  constructor
  · simpa [init_registry] using h.2.1
  · simpa [init_registry] using (h.2.2.2.1 (by decide)).1

/-- C2: for every request whose delegate raises a fault, the middleware
emits exactly the two increments http_errors_total first and
http_requests_total second, both at (path, method, "500") and both applied
before propagation; each of those two series grows by exactly 1 and no
other series changes; and the original fault is re-raised unchanged, never
converted to a response. -/
theorem c2_fault_path (c : Registry) (p m : String) (e : Fault) :
    (metrics_middleware p m (DelegateResult.fault e)).1
      = [Ev.incErr (p, m, ("500")), Ev.incReq (p, m, ("500"))] ∧
    (stepRequest c p m (DelegateResult.fault e)).2 = DelegateResult.fault e ∧
    (stepRequest c p m (DelegateResult.fault e)).1.http_errors_total (p, m, ("500"))
      = c.http_errors_total (p, m, ("500")) + 1 ∧
    (stepRequest c p m (DelegateResult.fault e)).1.http_requests_total (p, m, ("500"))
      = c.http_requests_total (p, m, ("500")) + 1 ∧
    ∀ l, l ≠ (p, m, ("500")) →
      (stepRequest c p m (DelegateResult.fault e)).1.http_errors_total l
          = c.http_errors_total l ∧
      (stepRequest c p m (DelegateResult.fault e)).1.http_requests_total l
          = c.http_requests_total l := by
  refine ⟨rfl, rfl, ?_, ?_, ?_⟩
  · exact incr_self _ _
  · exact incr_self _ _
  · intro l hl
    exact ⟨incr_other _ _ _ hl, incr_other _ _ _ hl⟩

/-- C3: for every request matched against a declared route, the path label
recorded on both counters is that route's declared path (which, the routes
being parameterless, is the matched raw path), the method label is the
method verb as a literal string, and the status label is the stringified
3-digit status code (the sentinel "500" on a fault). -/
theorem c3_labels (p m : String) (d : DelegateResult)
    (route : String × String) (hroute : find_route m p = some route)
    (hv : obsStatusValid { path := p, method := m, result := d }) :
    route.2 = p ∧
    (∀ ev ∈ (metrics_middleware p m d).1, evLabel ev = (route.2, m, statusLabel d)) ∧
    (statusLabel d).length = 3 := by
  have hpred := List.find?_some hroute
  have hp : route.2 = p := by
    have hand : (route.1 == m) = true ∧ (route.2 == p) = true := by
      simpa [Bool.and_eq_true] using hpred
    exact eq_of_beq hand.2
  refine ⟨hp, ?_, ?_⟩
  · intro ev hev
    rw [hp]
    cases d with
    | ok r =>
        by_cases hb : startswith (Nat.repr r.status_code) ("5") <;>
          simp only [metrics_middleware, hb, if_pos, if_neg, List.mem_cons,
            List.mem_singleton, List.not_mem_nil, or_false, Bool.false_eq_true,
            if_false, if_true] at hev
        · rcases hev with h | h <;> rw [h] <;> rfl
        · rw [hev]
          rfl
    | fault e =>
        simp only [metrics_middleware, List.mem_cons, List.mem_singleton,
          List.not_mem_nil, or_false] at hev
        rcases hev with h | h <;> rw [h] <;> rfl
  · cases d with
    | ok r =>
        exact (repr_three_digit r.status_code (Nat.lt_succ_of_le hv.2) hv.1).2
    | fault e => rfl

/-- Witness for c3_labels: GET /work with the successful work response
matches the declared route ("GET", "/work") and every emitted increment
carries the label ("/work", "GET", "200"). -/
theorem c3_labels_witness :
    find_route ("GET") ("/work") = some (("GET"), ("/work")) ∧
    (∀ ev ∈ (metrics_middleware ("/work") ("GET") (DelegateResult.ok (work false))).1,
      evLabel ev = (("/work"), ("GET"), statusLabel (DelegateResult.ok (work false)))) ∧
    (statusLabel (DelegateResult.ok (work false))).length = 3 := by
  have h := c3_labels ("/work") ("GET") (DelegateResult.ok (work false))
    (("GET"), ("/work")) rfl ⟨by decide, by decide⟩
  exact ⟨rfl, h.2.1, h.2.2⟩

/-- C4: GET /work with fail true produces the handled response 500 with
body error "intentional failure"; flowing through the middleware success
path it leaves the outcome unchanged and bumps both counters at
("/work", "GET", "500") by exactly 1 (from 0 to 1 on a fresh registry). -/
theorem c4_work_fail :
    work true = { status_code := 500, body := Body.json_error ("intentional failure") } ∧
    (stepRequest init_registry ("/work") ("GET") (DelegateResult.ok (work true))).2
      = DelegateResult.ok (work true) ∧
    (stepRequest init_registry ("/work") ("GET")
        (DelegateResult.ok (work true))).1.http_requests_total
      (("/work"), ("GET"), ("500")) = 1 ∧
    (stepRequest init_registry ("/work") ("GET")
        (DelegateResult.ok (work true))).1.http_errors_total
      (("/work"), ("GET"), ("500")) = 1 := by
  refine ⟨rfl, rfl, ?_, ?_⟩ <;> decide

/-- C5: GET /work with fail false or absent returns status 200 with result
the sum of the squares of 1..100, namely 338350, on every call. -/
theorem c5_work_success (q : Option Bool) (h : q = none ∨ q = some false) :
    work_endpoint q = { status_code := 200, body := Body.json_result sum_squares_value } ∧
    sum_squares_value = ((List.range' 1 100).map (fun i => i * i)).sum ∧
    sum_squares_value = 338350 := by
  rcases h with h | h <;> subst h <;> exact ⟨rfl, rfl, by decide⟩

/-- Witness for c5_work_success at the absent-parameter input. -/
theorem c5_work_success_witness :
    ((none : Option Bool) = none ∨ (none : Option Bool) = some false) ∧
    work_endpoint none = { status_code := 200, body := Body.json_result sum_squares_value } ∧
    sum_squares_value = 338350 := by
  have h := c5_work_success none (Or.inl rfl)
  exact ⟨Or.inl rfl, h.1, h.2.2⟩

/-- Running a request sequence adds, to each series, exactly the number of
observations whose recorded label matches it, and to each error series
exactly the number of matching observations with a 5xx or fault outcome. -/
theorem runObs_counts (os : List Obs) : ∀ (c : Registry) (l : Labels),
    (∀ o ∈ os, obsStatusValid o) →
    (runObs c os).http_requests_total l
        = c.http_requests_total l + os.countP (fun o => decide (obsLabel o = l)) ∧
    (runObs c os).http_errors_total l
        = c.http_errors_total l + os.countP (fun o => decide (obsLabel o = l) && obs_is5xx o) := by
  induction os with
  | nil =>
      intro c l hv
      simp [runObs]
  | cons o os ih =>
      obtain ⟨op, om, od⟩ := o
      intro c l hv
      have hvo : obsStatusValid (Obs.mk op om od) := hv _ (List.mem_cons_self _ os)
      have hvt : ∀ o2 ∈ os, obsStatusValid o2 :=
        fun o2 h2 => hv o2 (List.mem_cons_of_mem _ h2)
      have hstep := ih ((stepRequest c op om od).1) l hvt
      have hrq := stepRequest_requests c op om od
      have herr := stepRequest_errors c op om od hvo
      have hrun : runObs c (Obs.mk op om od :: os)
          = runObs ((stepRequest c op om od).1) os := rfl
      constructor
      · rw [hrun, hstep.1, hrq, incr_apply, List.countP_cons]
        by_cases he : obsLabel (Obs.mk op om od) = l
        · simp [he] <;> omega
        · simp [he, Ne.symm he] <;> omega
      · rw [hrun, hstep.2, herr, List.countP_cons]
        by_cases he : obsLabel (Obs.mk op om od) = l
        · cases h5 : obs_is5xx (Obs.mk op om od) <;>
            simp [he, h5, incr_apply] <;> omega
        · cases h5 : obs_is5xx (Obs.mk op om od) <;>
            simp [he, Ne.symm he, h5, incr_apply] <;> omega

/-- C6: after any finite request sequence, the metrics endpoint renders the
current registry, in which each http_requests_total series equals the exact
number of observed requests with that label tuple and each
http_errors_total series equals the exact number of observed requests with
that tuple whose outcome was a 5xx status or an unhandled fault. -/
theorem c6_metrics_exact_counts (os : List Obs) (l : Labels)
    (hv : ∀ o ∈ os, obsStatusValid o) :
    (metrics (runObs init_registry os)).status_code = 200 ∧
    (metrics (runObs init_registry os)).body = Body.metrics_text (runObs init_registry os) ∧
    (runObs init_registry os).http_requests_total l
      = os.countP (fun o => decide (obsLabel o = l)) ∧
    (runObs init_registry os).http_errors_total l
      = os.countP (fun o => decide (obsLabel o = l) && obs_is5xx o) := by
  have h := runObs_counts os init_registry l hv
  exact ⟨rfl, rfl, by simpa [init_registry] using h.1,
    by simpa [init_registry] using h.2⟩

/-- Witness for c6_metrics_exact_counts on a concrete three-request
sequence: a handled 500 on /work, a 200 on /work, and a fault on /work; at
label ("/work", "GET", "500") the request count is 2 and the error count
is 2, and at ("/work", "GET", "200") they are 1 and 0. -/
theorem c6_metrics_exact_counts_witness :
    (∀ o ∈ [Obs.mk ("/work") ("GET") (DelegateResult.ok (work true)),
        Obs.mk ("/work") ("GET") (DelegateResult.ok (work false)),
        Obs.mk ("/work") ("GET")
          (DelegateResult.fault { name := ("RuntimeError"), msg := ("boom") })],
      obsStatusValid o) ∧
    (runObs init_registry
        [Obs.mk ("/work") ("GET") (DelegateResult.ok (work true)),
          Obs.mk ("/work") ("GET") (DelegateResult.ok (work false)),
          Obs.mk ("/work") ("GET")
            (DelegateResult.fault { name := ("RuntimeError"), msg := ("boom") })]).http_requests_total
      (("/work"), ("GET"), ("500")) = 2 ∧
    (runObs init_registry
        [Obs.mk ("/work") ("GET") (DelegateResult.ok (work true)),
          Obs.mk ("/work") ("GET") (DelegateResult.ok (work false)),
          Obs.mk ("/work") ("GET")
            (DelegateResult.fault { name := ("RuntimeError"), msg := ("boom") })]).http_errors_total
      (("/work"), ("GET"), ("500")) = 2 := by
  have hv : ∀ o ∈ [Obs.mk ("/work") ("GET") (DelegateResult.ok (work true)),
      Obs.mk ("/work") ("GET") (DelegateResult.ok (work false)),
      Obs.mk ("/work") ("GET")
        (DelegateResult.fault { name := ("RuntimeError"), msg := ("boom") })],
      obsStatusValid o := by
    intro o ho
    simp only [List.mem_cons, List.not_mem_nil, or_false] at ho
    rcases ho with h | h | h <;> subst h
    · exact ⟨by decide, by decide⟩
    · exact ⟨by decide, by decide⟩
    · trivial
  have h := c6_metrics_exact_counts
    [Obs.mk ("/work") ("GET") (DelegateResult.ok (work true)),
      Obs.mk ("/work") ("GET") (DelegateResult.ok (work false)),
      Obs.mk ("/work") ("GET")
        (DelegateResult.fault { name := ("RuntimeError"), msg := ("boom") })]
    (("/work"), ("GET"), ("500")) hv
  refine ⟨hv, ?_, ?_⟩
  · rw [h.2.2.1]
    decide
  · rw [h.2.2.2]
    decide

/-- C7: every counter series starts at 0 in the initial registry, and one
middleware invocation leaves each series either unchanged or larger by
exactly 1, so no series ever decreases and nothing is reset or deleted. -/
theorem c7_monotone_counters :
    (∀ l, init_registry.http_requests_total l = 0 ∧ init_registry.http_errors_total l = 0) ∧
    ∀ (c : Registry) (p m : String) (d : DelegateResult) (l : Labels),
      ((stepRequest c p m d).1.http_requests_total l = c.http_requests_total l ∨
        (stepRequest c p m d).1.http_requests_total l = c.http_requests_total l + 1) ∧
      ((stepRequest c p m d).1.http_errors_total l = c.http_errors_total l ∨
        (stepRequest c p m d).1.http_errors_total l = c.http_errors_total l + 1) ∧
      c.http_requests_total l ≤ (stepRequest c p m d).1.http_requests_total l ∧
      c.http_errors_total l ≤ (stepRequest c p m d).1.http_errors_total l := by
  refine ⟨fun l => ⟨rfl, rfl⟩, ?_⟩
  intro c p m d l
  have hrq := stepRequest_requests c p m d
  have Hreq : (stepRequest c p m d).1.http_requests_total l
      = c.http_requests_total l
        + (if l = obsLabel { path := p, method := m, result := d } then 1 else 0) := by
    rw [hrq, incr_apply]
  have Herr : (stepRequest c p m d).1.http_errors_total l = c.http_errors_total l ∨
      (stepRequest c p m d).1.http_errors_total l
        = c.http_errors_total l
          + (if l = obsLabel { path := p, method := m, result := d } then 1 else 0) := by
    rcases stepRequest_errors_raw c p m d with h | h
    · left
      rw [h]
    · right
      rw [h, incr_apply]
  by_cases he : l = obsLabel { path := p, method := m, result := d } <;>
    rcases Herr with h | h <;> simp [he] at Hreq h ⊢ <;> omega

/-- Folding any event list over the registry raises each request series by
exactly the number of increment events for that series in the list, so the
final value depends only on how many increments occurred, not their order. -/
theorem runEvents_requests_count (es : List Ev) : ∀ (c : Registry) (l : Labels),
    (runEvents c es).http_requests_total l
      = c.http_requests_total l + es.count (Ev.incReq l) := by
  induction es with
  | nil =>
      intro c l
      simp [runEvents]
  | cons e es ih =>
      intro c l
      have hrun : runEvents c (e :: es) = runEvents (applyEv c e) es := rfl
      rw [hrun, ih, List.count_cons]
      cases e with
      | incReq l0 =>
          by_cases he : l0 = l <;>
            simp [applyEv, incr_apply, he, Ne.symm, beq_iff_eq] <;> omega
      | incErr l0 =>
          simp [applyEv]

/-- A single middleware invocation emits exactly one http_requests_total
increment, at the label it records for the request. -/
theorem middleware_trace_count (p m : String) (d : DelegateResult) (l : Labels)
    (h : obsLabel { path := p, method := m, result := d } = l) :
    ((metrics_middleware p m (d : DelegateResult)).1).count (Ev.incReq l) = 1 := by
  cases d with
  | ok r =>
      have hl : (p, m, Nat.repr r.status_code) = l := h
      by_cases hb : startswith (Nat.repr r.status_code) ("5") <;>
        simp [metrics_middleware, hb, List.count_cons, hl, beq_iff_eq]
  | fault e =>
      have hl : (p, m, ("500")) = (l : Labels) := h
      simp [metrics_middleware, List.count_cons, hl, beq_iff_eq]

/-- The concatenation of the traces of any number of requests that all
record the same label contains exactly one request increment per request. -/
theorem traces_count_join (p m : String) (l : Labels) :
    ∀ (ds : List DelegateResult),
      (∀ d ∈ ds, obsLabel { path := p, method := m, result := d } = l) →
      ((ds.map (fun d => (metrics_middleware p m d).1)).flatten).count (Ev.incReq l)
        = ds.length := by
  intro ds
  induction ds with
  | nil =>
      intro h
      rfl
  | cons d ds ih =>
      intro h
      have hd := h d (List.mem_cons_self d ds)
      have ht : ∀ d2 ∈ ds, obsLabel { path := p, method := m, result := d2 } = l :=
        fun d2 h2 => h d2 (List.mem_cons_of_mem d h2)
      simp only [List.map_cons, List.flatten_cons, List.count_append, List.length_cons]
      rw [middleware_trace_count p m d l hd, ih ht]
      omega

/-- C8: for N requests that all resolve to the same label tuple, running
any interleaving (any permutation of the concatenated per-request increment
traces, each increment being one atomic event) against a fresh registry
leaves that request series at exactly N: no update is lost. -/
theorem c8_no_lost_updates (p m : String) (l : Labels) (ds : List DelegateResult)
    (es : List Ev)
    (hsame : ∀ d ∈ ds, obsLabel { path := p, method := m, result := d } = l)
    (hperm : es.Perm ((ds.map (fun d => (metrics_middleware p m d).1)).flatten)) :
    (runEvents init_registry es).http_requests_total l = ds.length := by
  rw [runEvents_requests_count]
  rw [show init_registry.http_requests_total l = 0 from rfl]
  rw [hperm.count_eq]
  rw [traces_count_join p m l ds hsame]
  omega

/-- Witness for c8_no_lost_updates: two handled-500 requests to GET /work
whose traces are interleaved (both request increments first, then both
error increments) still leave the series at exactly 2. -/
theorem c8_no_lost_updates_witness :
    (∀ d ∈ [DelegateResult.ok (work true), DelegateResult.ok (work true)],
      obsLabel { path := ("/work"), method := ("GET"), result := d }
        = (("/work"), ("GET"), ("500"))) ∧
    ([Ev.incReq (("/work"), ("GET"), ("500")), Ev.incReq (("/work"), ("GET"), ("500")),
        Ev.incErr (("/work"), ("GET"), ("500")), Ev.incErr (("/work"), ("GET"), ("500"))].Perm
      (([DelegateResult.ok (work true), DelegateResult.ok (work true)].map
          (fun d => (metrics_middleware ("/work") ("GET") d).1)).flatten)) ∧
    (runEvents init_registry
        [Ev.incReq (("/work"), ("GET"), ("500")), Ev.incReq (("/work"), ("GET"), ("500")),
          Ev.incErr (("/work"), ("GET"), ("500")),
          Ev.incErr (("/work"), ("GET"), ("500"))]).http_requests_total
      (("/work"), ("GET"), ("500")) = 2 := by
  have hsame : ∀ d ∈ [DelegateResult.ok (work true), DelegateResult.ok (work true)],
      obsLabel { path := ("/work"), method := ("GET"), result := d }
        = (("/work"), ("GET"), ("500")) := by
    intro d hd
    simp only [List.mem_cons, List.not_mem_nil, or_false] at hd
    rcases hd with h | h <;> subst h <;> decide
  have hperm : ([Ev.incReq (("/work"), ("GET"), ("500")),
      Ev.incReq (("/work"), ("GET"), ("500")),
      Ev.incErr (("/work"), ("GET"), ("500")), Ev.incErr (("/work"), ("GET"), ("500"))].Perm
      (([DelegateResult.ok (work true), DelegateResult.ok (work true)].map
          (fun d => (metrics_middleware ("/work") ("GET") d).1)).flatten)) := by
    decide
  exact ⟨hsame, hperm,
    c8_no_lost_updates ("/work") ("GET") (("/work"), ("GET"), ("500"))
      [DelegateResult.ok (work true), DelegateResult.ok (work true)] _ hsame hperm⟩

/-- One middleware invocation preserves the pointwise bound of the error
series by the request series: both counters are only ever bumped together
at the same label, the request counter in every execution. -/
theorem step_preserves_le (c : Registry) (p m : String) (d : DelegateResult)
    (hinv : ∀ l, c.http_errors_total l ≤ c.http_requests_total l) :
    ∀ l, (stepRequest c p m d).1.http_errors_total l
      ≤ (stepRequest c p m d).1.http_requests_total l := by
  intro l
  have hrq := stepRequest_requests c p m d
  rcases stepRequest_errors_raw c p m d with h | h <;> rw [h, hrq, incr_apply]
  · exact Nat.le_add_right_of_le (hinv l)
  · rw [incr_apply]
    exact Nat.add_le_add (hinv l) (Nat.le_refl _)

/-- C9: after any sequence of completed middleware invocations starting
from the initial registry, every http_errors_total series is bounded by
the http_requests_total series of the same label tuple. -/
theorem c9_errors_le_requests : ∀ (os : List Obs) (l : Labels),
    (runObs init_registry os).http_errors_total l
      ≤ (runObs init_registry os).http_requests_total l := by
  have gen : ∀ (os : List Obs) (c : Registry),
      (∀ l, c.http_errors_total l ≤ c.http_requests_total l) →
      ∀ l, (runObs c os).http_errors_total l ≤ (runObs c os).http_requests_total l := by
    intro os
    induction os with
    | nil =>
        intro c h l
        exact h l
    | cons o os ih =>
        intro c h l
        exact ih _ (step_preserves_le c o.path o.method o.result h) l
  intro os l
  exact gen os init_registry (fun _ => Nat.le_refl 0) l

/-- C10: the work handler is deterministic and touches no state: two
invocations with equal fail parameters, in arbitrary registry states,
produce identical responses, and the registry is left exactly as found. -/
theorem c10_work_deterministic (f1 f2 : Bool) (s1 s2 : Registry) (h : f1 = f2) :
    (work_handler f1 s1).1 = (work_handler f2 s2).1 ∧ (work_handler f1 s1).2 = s1 := by
  subst h
  exact ⟨rfl, rfl⟩

/-- Witness for c10_work_deterministic: fail true against the fresh
registry and against a registry mutated by a fault both give the same
response and leave their registry untouched. -/
theorem c10_work_deterministic_witness :
    (true = true) ∧
    (work_handler true init_registry).1
      = (work_handler true (stepRequest init_registry ("/x") ("GET")
          (DelegateResult.fault { name := ("RuntimeError"), msg := ("boom") })).1).1 ∧
    (work_handler true init_registry).2 = init_registry :=
  ⟨rfl,
    (c10_work_deterministic true true init_registry
      (stepRequest init_registry ("/x") ("GET")
        (DelegateResult.fault { name := ("RuntimeError"), msg := ("boom") })).1 rfl).1,
    (c10_work_deterministic true true init_registry
      (stepRequest init_registry ("/x") ("GET")
        (DelegateResult.fault { name := ("RuntimeError"), msg := ("boom") })).1 rfl).2⟩
